import Mathlib

/-!
Verification of the natural-language specification of `src/server.js`
(a REST façade over a hosted relational backend) against a shallow
embedding of its code in Lean.

The embedding models: the `chunkArray` helper (as the literal JavaScript
index loop, with fuel, over JavaScript `slice` semantics), the
`insertChunks` bulk-insert orchestrator, the `ingestNdjsonFromUrl`
streaming ingester, the `authMiddleware`, and the route handlers
generated by `generateRoutes`.  The remote backend (supabase), `fetch`
and `jwt.verify` are external capabilities; they are modelled as
abstract function parameters, except where a claim depends on the
backend contract stated in the spec (those definitions carry a
`Modelled from the spec:` doc comment).
-/

namespace MovieDb

universe u

variable {α : Type u}


/-- JavaScript `Array.prototype.slice(begin, end)` on a list: negative
indices count from the end, and indices are clamped to `[0, length]`. -/
def jsSlice (l : List α) (b e : Int) : List α :=
  let len : Int := l.length
  let b' : Int := if b < 0 then max (len + b) 0 else min b len
  let e' : Int := if e < 0 then max (len + e) 0 else min e len
  (l.take e'.toNat).drop b'.toNat

/-- The loop `for (let i = 0; i < array.length; i += size) result.push(array.slice(i, i + size))`
of `chunkArray` (src/server.js, lines 21-27), instrumented with fuel:
`none` means the given number of iterations did not finish the loop. -/
def chunkArrayLoop (size : Int) (l : List α) : Nat → Int → List (List α) → Option (List (List α))
  | 0, _, _ => none
  | fuel + 1, i, acc =>
    if i < (l.length : Int) then
      chunkArrayLoop size l fuel (i + size) (acc ++ [jsSlice l i (i + size)])
    else
      some acc

/-- `chunkArray(array, size)` from src/server.js: run the index loop from
`i = 0` with an empty result accumulator. -/
def chunkArray (l : List α) (size : Int) (fuel : Nat) : Option (List (List α)) :=
  chunkArrayLoop size l fuel 0 []

/-- The loop of `chunkArray` never terminates, whatever the fuel. -/
def chunkArrayDiverges (l : List α) (size : Int) : Prop :=
  ∀ fuel, chunkArray l size fuel = none

/-- The loop of `chunkArray` terminates with result `r` for some fuel. -/
def chunkArrayTerminates (l : List α) (size : Int) : Prop :=
  ∃ fuel r, chunkArray l size fuel = some r

/-- Structural form of `chunkArray` for positive sizes: repeatedly take a
prefix of `size` elements.  `chunkArray_eq_pos` below proves that for every
positive size the fueled loop embedding computes exactly this. -/
def chunkArrayPos (size : Nat) : List α → List (List α)
  | [] => []
  | a :: l => (a :: l).take size :: chunkArrayPos size (l.drop (size - 1))
  termination_by l => l.length
  decreasing_by simp [List.length_drop]; omega

/-! ## Backend writes and the bulk insert orchestrator `insertChunks` -/

/-- One backend write issued by `insertChunks`: `upsert(chunk, { onConflict:
'id', ignoreDuplicates: true })` (mode `skip`), `upsert(chunk, { onConflict:
'id' })` (mode `merge`), or `insert(chunk)` (any other mode). -/
inductive BackendCall (α : Type u) where
  | upsertIgnore (table : String) (chunk : List α)
  | upsertMerge (table : String) (chunk : List α)
  | insertRows (table : String) (chunk : List α)
  deriving DecidableEq, Repr

/-- Abstract supabase write operations.  Each returns `some message` when
the backend reports an error for that call, `none` on success. -/
structure Backend (α : Type u) where
  upsertIgnore : String → List α → Option String
  upsertMerge : String → List α → Option String
  insertRows : String → List α → Option String

/-- The backend error result for one chunk, following the
`if mode === 'skip' / else if mode === 'merge' / else` chain of
`insertChunks` (src/server.js, lines 47-56). -/
def chunkWrite (B : Backend α) (table mode : String) (c : List α) : Option String :=
  if mode = "skip" then B.upsertIgnore table c
  else if mode = "merge" then B.upsertMerge table c
  else B.insertRows table c

/-- The backend call issued for one chunk, per the same mode chain. -/
def chunkCall (table mode : String) (c : List α) : BackendCall α :=
  if mode = "skip" then .upsertIgnore table c
  else if mode = "merge" then .upsertMerge table c
  else .insertRows table c

/-- The `{ error?, insertedTotal }` result of `insertChunks`, instrumented
with the ordered trace of backend writes it attempted. -/
structure InsertResult (α : Type u) where
  error : Option String
  insertedTotal : Nat
  calls : List (BackendCall α)
  deriving DecidableEq, Repr

/-- The `for (const [i, chunk] of chunks.entries())` loop of `insertChunks`:
on a failing write it returns at once with the 1-indexed chunk error
message; otherwise it adds the chunk's length and continues. -/
def insertChunksGo (B : Backend α) (table mode : String) (numChunks : Nat) :
    List (List α) → Nat → Nat → List (BackendCall α) → InsertResult α
  | [], _, total, trace => ⟨none, total, trace⟩
  | c :: rest, i, total, trace =>
    match chunkWrite B table mode c with
    | some msg =>
        ⟨some ("Chunk " ++ toString (i + 1) ++ "/" ++ toString numChunks ++ " failed: " ++ msg),
         total, trace ++ [chunkCall table mode c]⟩
    | none =>
        insertChunksGo B table mode numChunks rest (i + 1) (total + c.length)
          (trace ++ [chunkCall table mode c])

/-- `insertChunks(tableName, rows, chunkSize, mode)` (src/server.js, lines
42-60).  `chunkArrayPos` stands for the source's `chunkArray(rows,
chunkSize)`, with which it agrees for every positive chunk size
(`chunkArray_eq_pos`); every call site in the source passes a positive
chunk size. -/
def insertChunks (B : Backend α) (table : String) (rows : List α)
    (chunkSize : Nat) (mode : String) : InsertResult α :=
  let chunks := chunkArrayPos chunkSize rows
  insertChunksGo B table mode chunks.length chunks 0 0 []

/-- A backend on which every write succeeds. -/
def alwaysOkBackend : Backend Nat :=
  ⟨fun _ _ => none, fun _ _ => none, fun _ _ => none⟩

/-- A backend on which every plain insert fails with a duplicate-key error. -/
def dupFailBackend : Backend Nat :=
  ⟨fun _ _ => none, fun _ _ => none, fun _ _ => some "duplicate key"⟩

/-! ## NDJSON stream ingestion -/

/-- JavaScript `String.prototype.trim()`: strip whitespace from both ends
(executable model; `String.trim` itself does not reduce definitionally). -/
def jsTrim (s : String) : String :=
  String.mk (((s.data.dropWhile Char.isWhitespace).reverse.dropWhile Char.isWhitespace).reverse)

/-- The `for await (const line of rl)` loop of `ingestNdjsonFromUrl`
(src/server.js, lines 82-99), over the stream's list of lines: blank lines
are skipped, each non-blank line is parsed (a parse failure aborts the
ingestion), parsed objects accumulate in `buffer`, which is flushed through
`insertChunks` (default mode `skip`) whenever it reaches `chunkSize`, and
once more after the stream ends if non-empty.  Returns the accumulated
total with the ordered trace of backend writes. -/
def ingestLines (B : Backend α) (table : String) (parse : String → Except String α)
    (chunkSize : Nat) :
    List String → List α → Nat → List (BackendCall α) →
      Except String Nat × List (BackendCall α)
  | [], buffer, total, trace =>
    if buffer.length ≠ 0 then
      match insertChunks B table buffer chunkSize "skip" with
      | ⟨some e, _, calls⟩ => (.error e, trace ++ calls)
      | ⟨none, inserted, calls⟩ => (.ok (total + inserted), trace ++ calls)
    else (.ok total, trace)
  | line :: rest, buffer, total, trace =>
    if jsTrim line = "" then ingestLines B table parse chunkSize rest buffer total trace
    else
      match parse (jsTrim line) with
      | .error e => (.error e, trace)
      | .ok obj =>
        if chunkSize ≤ (buffer ++ [obj]).length then
          match insertChunks B table (buffer ++ [obj]) chunkSize "skip" with
          | ⟨some e, _, calls⟩ => (.error e, trace ++ calls)
          | ⟨none, inserted, calls⟩ =>
              ingestLines B table parse chunkSize rest [] (total + inserted) (trace ++ calls)
        else ingestLines B table parse chunkSize rest (buffer ++ [obj]) total trace

/-- `ingestNdjsonFromUrl(tableName, fileUrl, chunkSize)` (src/server.js,
lines 63-101).  `fetchUrl` abstracts the HTTP GET returning the response
body's lines (or a non-success status error); `parse` abstracts
`JSON.parse` on one line. -/
def ingestNdjsonFromUrl (B : Backend α) (table : String)
    (fetchUrl : String → Except String (List String)) (parse : String → Except String α)
    (fileUrl : String) (chunkSize : Nat) : Except String Nat × List (BackendCall α) :=
  match fetchUrl fileUrl with
  | .error e => (.error ("Failed to fetch fileUrl: " ++ e), [])
  | .ok lines => ingestLines B table parse chunkSize lines [] 0 []

/-- The records an NDJSON line list parses to: non-blank lines in order,
each through `parse`. -/
def parsedRecords (parse : String → Except String α) (lines : List String) : List α :=
  lines.filterMap fun line => if jsTrim line = "" then none else (parse (jsTrim line)).toOption

/-- Fetch stub returning a 3-line NDJSON body. -/
def fetchThree : String → Except String (List String) := fun _ => .ok ["1", "2", "3"]

/-- `JSON.parse` stub for NDJSON lines holding the numbers 1, 2 and 3. -/
def natParse : String → Except String Nat := fun s =>
  if s = "1" then .ok 1
  else if s = "2" then .ok 2
  else if s = "3" then .ok 3
  else .error "Unexpected token"

/-! ## Auth middleware -/

/-- Core of JavaScript `String.prototype.split(sep)` for a single-character
separator, over character lists (executable; consecutive separators yield
empty fields, as in JS). -/
def splitCharList (sep : Char) : List Char → List (List Char)
  | [] => [[]]
  | c :: cs =>
    let r := splitCharList sep cs
    if c = sep then [] :: r
    else
      match r with
      | [] => [[c]]
      | g :: gs => (c :: g) :: gs

/-- JavaScript `s.split(sep)` for a single-character separator. -/
def jsSplit (sep : Char) (s : String) : List String :=
  (splitCharList sep s.data).map String.mk

/-- Outcome of the auth middleware: `res.status(401)`, `res.status(403)`,
or attach the decoded claims (`req.user = decoded`) and call `next()`. -/
inductive AuthOutcome (χ : Type u) where
  | reject401
  | reject403
  | proceed (claims : χ)
  deriving DecidableEq, Repr

/-- `authMiddleware(req, res, next)` (src/server.js, lines 29-39).
`verify` abstracts `jwt.verify(token, process.env.MY_API_KEY)` on the
token `authHeader.split(' ')[1]` (absent when the header has no second
field).  A JS-falsy header — missing, or the empty string — is rejected
with 401 before any verification. -/
def authMiddleware {χ : Type u} (verify : Option String → Except String χ)
    (authHeader : Option String) : AuthOutcome χ :=
  match authHeader with
  | none => .reject401
  | some h =>
    if h = "" then .reject401
    else
      match verify (jsSplit ' ' h)[1]? with
      | .error _ => .reject403
      | .ok claims => .proceed claims

/-- `jwt.verify` stub: accepts exactly the token `good-token`. -/
def verifyStub : Option String → Except String String := fun t =>
  match t with
  | some s => if s = "good-token" then .ok "user-1" else .error "invalid signature"
  | none => .error "jwt must be provided"

/-! ## Route registration and dispatch -/

inductive Method where
  | get | post | put | delete
  deriving DecidableEq, Repr

/-- One segment of an Express route pattern, as used in src/server.js: a
literal, the digits-only parameter `:id(\d+)` of the get-by-id route, or
the unconstrained parameter `:id` of the update/delete routes. -/
inductive Seg where
  | lit (s : String)
  | numParam
  | anyParam
  deriving DecidableEq, Repr

/-- The handlers registered by `generateRoutes(tableName)` plus the health
check. -/
inductive Handler where
  | create (table : String)
  | listAll (table : String)
  | withVideo (table : String)
  | search (table : String)
  | getById (table : String)
  | update (table : String)
  | destroy (table : String)
  | bulkUpload (table : String)
  | health
  deriving DecidableEq, Repr

structure Route where
  method : Method
  pattern : List Seg
  handler : Handler
  deriving DecidableEq, Repr

/-- Whether one pattern segment matches one path segment: `:id(\d+)`
requires one or more digits, `:id` matches any non-empty segment, a
literal matches exactly itself. -/
def segMatches : Seg → String → Bool
  | .lit t, s => t == s
  | .numParam, s => (s != "") && s.data.all Char.isDigit
  | .anyParam, s => s != ""

def routeMatches (r : Route) (m : Method) (path : List String) : Bool :=
  (r.method == m) && (r.pattern.length == path.length) &&
    (r.pattern.zip path).all fun p => segMatches p.1 p.2

/-- The routes registered by `generateRoutes(tableName)` (src/server.js,
lines 104-302), in registration order: create, list, with-video, search,
get-by-id (`:id(\d+)` guard), update, delete, bulk-upload. -/
def generateRoutes (t : String) : List Route :=
  [ ⟨.post, [.lit "api", .lit t], .create t⟩,
    ⟨.get, [.lit "api", .lit t], .listAll t⟩,
    ⟨.get, [.lit "api", .lit t, .lit "with-video"], .withVideo t⟩,
    ⟨.get, [.lit "api", .lit t, .lit "search"], .search t⟩,
    ⟨.get, [.lit "api", .lit t, .numParam], .getById t⟩,
    ⟨.put, [.lit "api", .lit t, .anyParam], .update t⟩,
    ⟨.delete, [.lit "api", .lit t, .anyParam], .destroy t⟩,
    ⟨.post, [.lit "api", .lit t, .lit "bulk-upload"], .bulkUpload t⟩ ]

/-- Every route the app registers:
`["movies", "series", "anime"].forEach(generateRoutes)` followed by the
health route `GET /` (src/server.js, lines 305-310). -/
def appRoutes : List Route :=
  (["movies", "series", "anime"].map generateRoutes).flatten ++ [⟨.get, [], .health⟩]

/-- Modelled from the spec: Express dispatch semantics (external to the
source) — the first registered route whose method and pattern match the
request handles it. -/
def dispatch (m : Method) (path : List String) : Option Handler :=
  (appRoutes.find? fun r => routeMatches r m path).map Route.handler

/-! ## List handler (pagination) -/

/-- JavaScript `parseInt(x) || d`: an unparsable (`NaN`) or zero value
falls back to the default `d`. -/
def jsOrDefault (x : Option Int) (d : Int) : Int :=
  match x with
  | none => d
  | some n => if n = 0 then d else n

/-- Modelled from the spec: the backend's ranged select (external to the
source) — `range(from, to)` returns the rows of the ordered table from
index `from` to index `to` inclusive. -/
def backendRange (ordered : List α) (fro upTo : Int) : List α :=
  (ordered.drop fro.toNat).take (upTo - fro + 1).toNat

/-- The `{page, total, totalPages, results}` body of a list response. -/
structure PageResponse (α : Type u) where
  page : Int
  total : Nat
  totalPages : Nat
  results : List α
  deriving DecidableEq, Repr

/-- The `GET /api/:table` list handler (src/server.js, lines 129-153) over
a backend whose table, ordered by `release_date` descending, is `ordered`:
page from `parseInt(req.query.page) || 1`, fixed page size 30, exact row
count, `totalPages = Math.ceil(count / 30)`. -/
def listHandler (ordered : List α) (pageQ : Option Int) : PageResponse α :=
  let page := jsOrDefault pageQ 1
  let limit : Int := 30
  let fro := (page - 1) * limit
  let upTo := fro + limit - 1
  { page := page
    total := ordered.length
    totalPages := (ordered.length + 29) / 30
    results := backendRange ordered fro upTo }

/-! ## Search handler -/

/-- A backend call made by the search route: the exact `eq('id', id).single()`
lookup, or the paged `ilike('original_title', pattern)` title search. -/
inductive SearchCall where
  | byId (id : String)
  | byTitle (pat : String) (fro upTo : Int) (countExact : Bool)
  deriving DecidableEq, Repr

/-- Response of the search route. -/
inductive SearchResp (α : Type u) where
  | single (row : α)
  | pageResp (page : Int) (total : Option Nat) (totalPages : Option Nat) (results : List α)
  | notFound (msg : String)
  | badRequest (msg : String)
  deriving DecidableEq, Repr

/-- `GET /api/:table/search` handler (src/server.js, lines 188-232).
`lookupById` abstracts `eq('id', id).single()` (whose error becomes a
404); `searchTitle` abstracts the `ilike` ranged query returning rows and
an optional count.  Returns the response together with the backend
queries issued. -/
def searchHandler (lookupById : String → Except String α)
    (searchTitle : String → Int → Int → Bool → Except String (List α × Option Nat))
    (qP idP : Option String) (pageQ : Option Int) (countP : Option String) :
    SearchResp α × List SearchCall :=
  let q := jsTrim (qP.getD "")
  let id := jsTrim (idP.getD "")
  if id ≠ "" then
    match lookupById id with
    | .error m => (.notFound m, [.byId id])
    | .ok row => (.single row, [.byId id])
  else if q = "" then (.badRequest "Provide either ?q or ?id", [])
  else
    let page := jsOrDefault pageQ 1
    let limit : Int := 30
    let fro := (page - 1) * limit
    let upTo := fro + limit - 1
    let countExact := countP == some "exact"
    match searchTitle ("%" ++ q ++ "%") fro upTo countExact with
    | .error m => (.badRequest m, [.byTitle ("%" ++ q ++ "%") fro upTo countExact])
    | .ok (rows, cnt) =>
        (.pageResp page cnt (cnt.map fun c => (c + 29) / 30) rows,
         [.byTitle ("%" ++ q ++ "%") fro upTo countExact])

/-- Backend lookup stub for the search witness: only id `7` exists. -/
def lookupStub : String → Except String String := fun id =>
  if id = "7" then .ok "row-7" else .error "row not found"

/-- Backend title-search stub for the search witness. -/
def searchTitleStub : String → Int → Int → Bool → Except String (List String × Option Nat) :=
  fun _ _ _ _ => .ok (["row-7"], some 1)

/-! ## Update handler -/

/-- Response of a single-row route: `res.json(body)` (200; `data[0]` may
be absent), `res.status(400).json({error})`, or `res.status(404).json({error})`. -/
inductive RouteResult (α : Type u) where
  | json (body : Option α)
  | err400 (msg : String)
  | err404 (msg : String)
  deriving DecidableEq, Repr

/-- `PUT /api/:table/:id` handler (src/server.js, lines 250-258): a backend
error answers 400 (this route never produces a 404); otherwise it answers
`res.json(data[0])`. -/
def updateHandler (backendResult : Except String (List α)) : RouteResult α :=
  match backendResult with
  | .error m => .err400 m
  | .ok rows => .json rows.head?

/-- Modelled from the spec: the backend `update(fields).eq('id', id).select()`
operation (the supabase client is external to the source).  Per the spec's
update contract, an id matching no row is reported as a backend error;
otherwise the matching rows are returned with the update applied. -/
def backendUpdate (table : List (Nat × α)) (id : Nat) (patch : α → α) :
    Except String (List (Nat × α)) :=
  let updated := (table.filter fun r => r.1 == id).map fun r => (r.1, patch r.2)
  if updated.isEmpty then .error "no rows matched the update" else .ok updated

/-! ## Bulk upload handler -/

/-- The request body of the bulk-upload route: a JSON array, or an object
possibly carrying `items` (a JSON array; a present non-array `items`
behaves as absent) and/or `fileUrl`. -/
inductive BulkBody (α : Type u) where
  | arrayBody (rows : List α)
  | objectBody (items : Option (List α)) (fileUrl : Option String)

/-- Response of the bulk-upload route. -/
inductive BulkResp where
  | ok (message : String)
  | badRequest (error : String)
  | serverError (error : String)
  deriving DecidableEq, Repr

/-- `POST /api/:table/bulk-upload` handler (src/server.js, lines 276-301):
chunk size `Math.max(1, parseInt(req.query.chunkSize) || 30)`; an array
body, then an `items` array, then a truthy `fileUrl` are tried in that
order, and only when none applies is the 400 returned.  A failing
`insertChunks` answers 400 with its message; a throwing ingestion is
caught by the route's catch and answers 500. -/
def bulkUploadHandler (B : Backend α) (table : String)
    (fetchUrl : String → Except String (List String)) (parse : String → Except String α)
    (body : BulkBody α) (chunkSizeQ : Option Int) : BulkResp × List (BackendCall α) :=
  let chunkSize := (max 1 (jsOrDefault chunkSizeQ 30)).toNat
  match body with
  | .arrayBody rows =>
    match insertChunks B table rows chunkSize "skip" with
    | ⟨some e, _, calls⟩ => (.badRequest e, calls)
    | ⟨none, n, calls⟩ =>
        (.ok ("Inserted " ++ toString n ++ " records into " ++ table ++
          " in chunks of " ++ toString chunkSize), calls)
  | .objectBody items fileUrl =>
    match items with
    | some rows =>
      match insertChunks B table rows chunkSize "skip" with
      | ⟨some e, _, calls⟩ => (.badRequest e, calls)
      | ⟨none, n, calls⟩ =>
          (.ok ("Inserted " ++ toString n ++ " records into " ++ table ++
            " in chunks of " ++ toString chunkSize), calls)
    | none =>
      match fileUrl with
      | some url =>
        if url = "" then
          (.badRequest "Provide either an array body, \x7b items: [...] \x7d, or \x7b fileUrl \x7d pointing to NDJSON", [])
        else
          match ingestNdjsonFromUrl B table fetchUrl parse url chunkSize with
          | (.error e, calls) => (.serverError e, calls)
          | (.ok total, calls) =>
              (.ok ("Stream-inserted " ++ toString total ++ " records into " ++ table ++
                " in chunks of " ++ toString chunkSize), calls)
      | none =>
        (.badRequest "Provide either an array body, \x7b items: [...] \x7d, or \x7b fileUrl \x7d pointing to NDJSON", [])

/-- How many of the three accepted input shapes a bulk-upload body
presents: array body, `items` array, truthy `fileUrl`. -/
def numShapes (body : BulkBody α) : Nat :=
  match body with
  | .arrayBody _ => 1
  | .objectBody items fileUrl =>
    (if items.isSome then 1 else 0) + (if fileUrl.any (fun u => u != "") then 1 else 0)

/-! ## Theorems -/

theorem chunkArrayPos_nil (size : Nat) : chunkArrayPos size ([] : List α) = [] := by
  rw [chunkArrayPos]

theorem chunkArrayPos_cons (size : Nat) (a : α) (l : List α) :
    chunkArrayPos size (a :: l) = (a :: l).take size :: chunkArrayPos size (l.drop (size - 1)) := by
  rw [chunkArrayPos]

theorem chunkArrayPos_ne_nil (size : Nat) (hs : 0 < size) (l : List α) (hl : l ≠ []) :
    chunkArrayPos size l = l.take size :: chunkArrayPos size (l.drop size) := by
  match l with
  | [] => exact absurd rfl hl
  | a :: l =>
    rw [chunkArrayPos_cons]
    congr 1
    match size, hs with
    | s + 1, _ => simp

/-- Concatenating the chunks of `chunkArrayPos` reconstructs the input. -/
theorem chunkArrayPos_join (size : Nat) (hs : 0 < size) (l : List α) :
    (chunkArrayPos size l).flatten = l := by
  induction l using chunkArrayPos.induct size with
  | case1 => simp [chunkArrayPos_nil]
  | case2 a l ih =>
    rw [chunkArrayPos_cons, List.flatten_cons, ih]
    match size, hs with
    | s + 1, _ =>
      simp only [Nat.add_sub_cancel, List.take_succ_cons]
      rw [List.cons_append, List.take_append_drop]

/-- Every chunk of `chunkArrayPos` has length at most `size`. -/
theorem chunkArrayPos_length_le (size : Nat) (l : List α) :
    ∀ c ∈ chunkArrayPos size l, c.length ≤ size := by
  induction l using chunkArrayPos.induct size with
  | case1 => simp [chunkArrayPos_nil]
  | case2 a l ih =>
    rw [chunkArrayPos_cons]
    intro c hc
    rcases List.mem_cons.mp hc with h | h
    · subst h
      simp
    · exact ih c h

/-- Every chunk of `chunkArrayPos` except possibly the last has length exactly `size`. -/
theorem chunkArrayPos_dropLast_length (size : Nat) (hs : 0 < size) (l : List α) :
    ∀ c ∈ (chunkArrayPos size l).dropLast, c.length = size := by
  induction l using chunkArrayPos.induct size with
  | case1 => simp [chunkArrayPos_nil]
  | case2 a l ih =>
    rw [chunkArrayPos_cons]
    intro c hc
    match hrest : chunkArrayPos size (l.drop (size - 1)) with
    | [] => simp [hrest] at hc
    | r :: rs =>
      rw [hrest] at hc
      rw [List.dropLast_cons_of_ne_nil (by simp)] at hc
      rcases List.mem_cons.mp hc with h | h
      · subst h
        have hne : l.drop (size - 1) ≠ [] := by
          intro hnil
          rw [hnil, chunkArrayPos_nil] at hrest
          exact List.noConfusion hrest
        have hlt : size - 1 < l.length := by
          by_contra hge
          push_neg at hge
          exact hne (List.drop_eq_nil_of_le hge)
        simp [List.length_take]
        omega
      · rw [hrest] at ih
        exact ih c h

theorem list_take_min (l : List α) (n : Nat) : l.take (min n l.length) = l.take n := by
  simp

theorem list_drop_min (l : List α) (n : Nat) : l.drop (min n l.length) = l.drop n := by
  rcases le_total n l.length with h | h
  · rw [min_eq_left h]
  · rw [min_eq_right h, List.drop_eq_nil_of_le le_rfl, List.drop_eq_nil_of_le h]

/-- `array.slice(i, i + size)` at natural-number index `i` and size is the
size-bounded window of the suffix starting at `i`. -/
theorem jsSlice_natCast (l : List α) (j s : Nat) :
    jsSlice l (j : Int) ((j : Int) + (s : Int)) = (l.drop j).take s := by
  simp only [jsSlice]
  rw [if_neg (by omega), if_neg (by omega)]
  have h1 : (min ((j : Int) + (s : Int)) ((l.length : Nat) : Int)).toNat = min (j + s) l.length := by
    omega
  have h2 : (min (j : Int) ((l.length : Nat) : Int)).toNat = min j l.length := by
    omega
  rw [h1, h2]
  rcases le_total j l.length with hj | hj
  · rw [min_eq_left hj, list_take_min, List.drop_take]
    congr 1
    omega
  · rw [min_eq_right hj, min_eq_right (by omega), List.take_length,
      List.drop_eq_nil_of_le le_rfl, List.drop_eq_nil_of_le hj, List.take_nil]

/-- The `chunkArray` loop, run at a positive size from index `j` with enough
fuel, appends exactly the structural chunks of the suffix starting at `j`. -/
theorem chunkArrayLoop_pos (size : Nat) (hs : 0 < size) (l : List α) :
    ∀ (fuel j : Nat) (acc : List (List α)), l.length - j < fuel →
      chunkArrayLoop (size : Int) l fuel (j : Int) acc =
        some (acc ++ chunkArrayPos size (l.drop j)) := by
  intro fuel
  induction fuel with
  | zero => intro j acc h; omega
  | succ f ih =>
    intro j acc h
    simp only [chunkArrayLoop]
    by_cases hj : (j : Int) < (l.length : Int)
    · rw [if_pos hj]
      have hjl : j < l.length := by exact_mod_cast hj
      have hcast : (j : Int) + (size : Int) = ((j + size : Nat) : Int) := by push_cast; ring
      rw [jsSlice_natCast, hcast, ih (j + size) _ (by omega)]
      rw [chunkArrayPos_ne_nil size hs (l.drop j) (by
        intro hnil
        rw [List.drop_eq_nil_iff] at hnil
        omega)]
      rw [List.drop_drop]
      simp [Nat.add_comm]
    · rw [if_neg hj]
      have hjl : l.length ≤ j := by omega
      rw [List.drop_eq_nil_of_le hjl, chunkArrayPos_nil, List.append_nil]

/-- For every positive size, the fueled loop embedding of `chunkArray`
terminates with fuel `length + 1` and computes `chunkArrayPos`. -/
theorem chunkArray_eq_pos (l : List α) (size : Nat) (hs : 0 < size) :
    chunkArray l (size : Int) (l.length + 1) = some (chunkArrayPos size l) := by
  have h := chunkArrayLoop_pos size hs l (l.length + 1) 0 [] (by omega)
  simpa using h

/-- With a non-positive size and a nonempty array, the loop index never
advances past the array, so no amount of fuel finishes the loop. -/
theorem chunkArrayLoop_nonpos (l : List α) (size : Int) (hs : size ≤ 0)
    (hl : 0 < l.length) :
    ∀ (fuel : Nat) (i : Int), i ≤ 0 → ∀ acc, chunkArrayLoop size l fuel i acc = none := by
  intro fuel
  induction fuel with
  | zero => intro i hi acc; rfl
  | succ f ih =>
    intro i hi acc
    simp only [chunkArrayLoop]
    rw [if_pos (by omega)]
    exact ih (i + size) (by omega) _

/-- C1: for every array and every positive size, the `chunkArray` loop
terminates (fuel `length + 1` suffices), concatenating the produced chunks
reconstructs the original array exactly (hence the chunks are
non-overlapping consecutive slices in original order), every chunk has
length at most `size`, and every chunk except possibly the last has length
exactly `size`. -/
theorem C1_chunkArray_reconstructs (l : List α) (size : Int) (hs : 0 < size) :
    ∃ r, chunkArray l size (l.length + 1) = some r ∧
      r.flatten = l ∧
      (∀ c ∈ r, c.length ≤ size.toNat) ∧
      (∀ c ∈ r.dropLast, c.length = size.toNat) := by
  obtain ⟨n, rfl⟩ : ∃ n : Nat, size = (n : Int) := ⟨size.toNat, by omega⟩
  have hn : 0 < n := by exact_mod_cast hs
  refine ⟨chunkArrayPos n l, chunkArray_eq_pos l n hn, chunkArrayPos_join n hn l, ?_, ?_⟩
  · simpa using chunkArrayPos_length_le n l
  · simpa using chunkArrayPos_dropLast_length n hn l

/-- Witness for C1 at the concrete array `[1,2,3,4,5]` and size `2`. -/
theorem C1_witness :
    (0 : Int) < 2 ∧
    chunkArray ([1, 2, 3, 4, 5] : List Nat) 2 6 = some [[1, 2], [3, 4], [5]] ∧
    (∃ r, chunkArray ([1, 2, 3, 4, 5] : List Nat) 2 6 = some r ∧
      r.flatten = [1, 2, 3, 4, 5] ∧
      (∀ c ∈ r, c.length ≤ (2 : Int).toNat) ∧
      (∀ c ∈ r.dropLast, c.length = (2 : Int).toNat)) :=
  ⟨by decide, by decide, C1_chunkArray_reconstructs [1, 2, 3, 4, 5] 2 (by decide)⟩

/-- C3 counterexample: on the nonempty array `[0]` with size `0`, the
`chunkArray` loop never terminates (no fuel finishes it), refuting the
claim that `chunkArray` terminates as a no-op for every non-positive size. -/
theorem C3_counterexample : chunkArrayDiverges ([0] : List Nat) 0 := by
  intro fuel
  exact chunkArrayLoop_nonpos [0] 0 le_rfl (by simp) fuel 0 le_rfl []

/-- C3 amended: for every non-positive size, `chunkArray` terminates (with
no chunks) on the empty array, and diverges on every nonempty array: the
loop index never advances past the array end, so it raises no error but
does not terminate. -/
theorem C3_amended_nonpos (l : List α) (size : Int) (hs : size ≤ 0) :
    (l = [] → chunkArray l size 1 = some []) ∧
    (l ≠ [] → chunkArrayDiverges l size) := by
  constructor
  · rintro rfl
    rfl
  · intro hl fuel
    have hlen : 0 < l.length := List.length_pos.mpr hl
    exact chunkArrayLoop_nonpos l size hs hlen fuel 0 le_rfl []

/-- Witness for the amended C3 at size `0`, arrays `[]` and `[7]`. -/
theorem C3_amended_witness :
    ((0 : Int) ≤ 0 ∧ (([] : List Nat) = [] → chunkArray ([] : List Nat) 0 1 = some [])) ∧
    (([7] : List Nat) ≠ [] → chunkArrayDiverges ([7] : List Nat) 0) :=
  ⟨⟨le_rfl, (C3_amended_nonpos ([] : List Nat) 0 le_rfl).1⟩,
   (C3_amended_nonpos ([7] : List Nat) 0 le_rfl).2⟩

theorem insertChunksGo_ok (B : Backend α) (table mode : String) (n : Nat) :
    ∀ (chunks : List (List α)) (i total : Nat) (trace : List (BackendCall α)),
      (∀ c ∈ chunks, chunkWrite B table mode c = none) →
      insertChunksGo B table mode n chunks i total trace =
        ⟨none, total + (chunks.map List.length).sum, trace ++ chunks.map (chunkCall table mode)⟩ := by
  intro chunks
  induction chunks with
  | nil => intro i total trace h; simp [insertChunksGo]
  | cons c rest ih =>
    intro i total trace h
    have hc := h c (by simp)
    simp only [insertChunksGo, hc]
    rw [ih (i + 1) (total + c.length) _ (fun c' h' => h c' (List.mem_cons_of_mem _ h'))]
    simp [Nat.add_assoc]

theorem insertChunksGo_fail (B : Backend α) (table mode : String) (n : Nat) :
    ∀ (pre : List (List α)) (c : List α) (post : List (List α)) (msg : String)
      (i total : Nat) (trace : List (BackendCall α)),
      (∀ c' ∈ pre, chunkWrite B table mode c' = none) →
      chunkWrite B table mode c = some msg →
      insertChunksGo B table mode n (pre ++ c :: post) i total trace =
        ⟨some ("Chunk " ++ toString (i + pre.length + 1) ++ "/" ++ toString n ++
            " failed: " ++ msg),
         total + (pre.map List.length).sum,
         trace ++ (pre ++ [c]).map (chunkCall table mode)⟩ := by
  intro pre
  induction pre with
  | nil =>
    intro c post msg i total trace hpre hc
    simp only [List.nil_append, insertChunksGo, hc]
    simp
  | cons p pre ih =>
    intro c post msg i total trace hpre hc
    have hp := hpre p (by simp)
    simp only [List.cons_append, insertChunksGo, hp, List.append_eq]
    rw [ih c post msg (i + 1) (total + p.length) _
      (fun c' h' => hpre c' (List.mem_cons_of_mem _ h')) hc]
    have hnum : i + 1 + pre.length + 1 = i + (p :: pre).length + 1 := by simp; omega
    rw [hnum]
    simp [Nat.add_assoc]

/-- C2: for every table name, record sequence, positive chunk size and
conflict mode: if every chunk's backend write succeeds, `insertChunks`
returns the total count of input records, no error, having attempted
exactly one write per chunk in order; if some chunk's write fails,
`insertChunks` halts at the first failing chunk (the attempted writes are
exactly the successful prefix plus the failing chunk, no later chunk is
attempted), returning the count of records in the chunks that succeeded
before the failure and an error message naming the failing chunk by its
1-indexed position together with the backend error text. -/
theorem C2_insertChunks_spec (B : Backend α) (table mode : String) (rows : List α)
    (chunkSize : Nat) (hs : 0 < chunkSize) :
    ((∀ c ∈ chunkArrayPos chunkSize rows, chunkWrite B table mode c = none) →
      insertChunks B table rows chunkSize mode =
        ⟨none, rows.length, (chunkArrayPos chunkSize rows).map (chunkCall table mode)⟩) ∧
    (∀ (pre : List (List α)) (c : List α) (post : List (List α)) (msg : String),
      chunkArrayPos chunkSize rows = pre ++ c :: post →
      (∀ c' ∈ pre, chunkWrite B table mode c' = none) →
      chunkWrite B table mode c = some msg →
      insertChunks B table rows chunkSize mode =
        ⟨some ("Chunk " ++ toString (pre.length + 1) ++ "/" ++
            toString (chunkArrayPos chunkSize rows).length ++ " failed: " ++ msg),
         (pre.map List.length).sum,
         (pre ++ [c]).map (chunkCall table mode)⟩) := by
  constructor
  · intro h
    unfold insertChunks
    rw [insertChunksGo_ok B table mode _ _ 0 0 [] h]
    have hlen : ((chunkArrayPos chunkSize rows).map List.length).sum = rows.length := by
      rw [← List.length_flatten, chunkArrayPos_join chunkSize hs rows]
    rw [hlen]
    simp
  · intro pre c post msg hsplit hpre hc
    unfold insertChunks
    rw [hsplit, insertChunksGo_fail B table mode _ pre c post msg 0 0 [] hpre hc]
    simp

/-- Witness for C2: a fully-succeeding run and a run failing at the first
chunk, both at chunk size 2. -/
theorem C2_witness :
    0 < 2 ∧
    insertChunks alwaysOkBackend "movies" [10, 20, 30] 2 "skip" =
      ⟨none, 3, [.upsertIgnore "movies" [10, 20], .upsertIgnore "movies" [30]]⟩ ∧
    insertChunks dupFailBackend "movies" [10, 20, 30, 40, 50] 2 "insert" =
      ⟨some "Chunk 1/3 failed: duplicate key", 0, [.insertRows "movies" [10, 20]]⟩ := by
  have hchunks3 : chunkArrayPos 2 ([10, 20, 30] : List Nat) = [[10, 20], [30]] := by
    simp [chunkArrayPos_cons, chunkArrayPos_nil]
  have hchunks5 : chunkArrayPos 2 ([10, 20, 30, 40, 50] : List Nat) =
      [[10, 20], [30, 40], [50]] := by
    simp [chunkArrayPos_cons, chunkArrayPos_nil]
  refine ⟨by decide, ?_, ?_⟩
  · have h := (C2_insertChunks_spec alwaysOkBackend "movies" "skip" [10, 20, 30] 2
      (by decide)).1 (fun c _ => rfl)
    rw [h, hchunks3]
    decide
  · have h := (C2_insertChunks_spec dupFailBackend "movies" "insert" [10, 20, 30, 40, 50] 2
      (by decide)).2 [] [10, 20] [[30, 40], [50]] "duplicate key"
      (by rw [hchunks5]; rfl) (by intro c' h'; simp at h') rfl
    rw [h, hchunks5]
    decide

theorem chunkWrite_skip (B : Backend α) (table : String) (c : List α) :
    chunkWrite B table "skip" c = B.upsertIgnore table c := by
  simp [chunkWrite]

theorem chunkArrayPos_singleton (size : Nat) (l : List α) (h0 : 0 < l.length)
    (hle : l.length ≤ size) : chunkArrayPos size l = [l] := by
  match l with
  | a :: l =>
    rw [chunkArrayPos_cons, List.take_of_length_le hle]
    have : l.drop (size - 1) = [] := by
      apply List.drop_eq_nil_of_le
      simp at hle ⊢
      omega
    rw [this, chunkArrayPos_nil]

theorem chunkArrayPos_prepend (size : Nat) (hs : 0 < size) (c m : List α)
    (hlen : c.length = size) :
    chunkArrayPos size (c ++ m) = c :: chunkArrayPos size m := by
  have hc : c ≠ [] := by
    intro h
    rw [h] at hlen
    simp at hlen
    omega
  rw [chunkArrayPos_ne_nil size hs (c ++ m) (by simp [hc]), ← hlen,
    List.take_left, List.drop_left]

/-- Every chunk write of `insertChunks` succeeding, it returns the total
input length, no error, and one backend call per chunk in order. -/
theorem insertChunks_ok (B : Backend α) (table mode : String) (rows : List α)
    (chunkSize : Nat) (hs : 0 < chunkSize)
    (h : ∀ c ∈ chunkArrayPos chunkSize rows, chunkWrite B table mode c = none) :
    insertChunks B table rows chunkSize mode =
      ⟨none, rows.length, (chunkArrayPos chunkSize rows).map (chunkCall table mode)⟩ := by
  unfold insertChunks
  rw [insertChunksGo_ok B table mode _ _ 0 0 [] h]
  have hlen : ((chunkArrayPos chunkSize rows).map List.length).sum = rows.length := by
    rw [← List.length_flatten, chunkArrayPos_join chunkSize hs rows]
  rw [hlen]
  simp

theorem ingestLines_ok (B : Backend α) (table : String) (parse : String → Except String α)
    (chunkSize : Nat) (hs : 0 < chunkSize)
    (hB : ∀ c, B.upsertIgnore table c = none) :
    ∀ (lines : List String) (buffer : List α) (total : Nat) (trace : List (BackendCall α)),
      buffer.length < chunkSize →
      (∀ line ∈ lines, jsTrim line ≠ "" → ∃ r, parse (jsTrim line) = .ok r) →
      ingestLines B table parse chunkSize lines buffer total trace =
        (.ok (total + buffer.length + (parsedRecords parse lines).length),
         trace ++ (chunkArrayPos chunkSize (buffer ++ parsedRecords parse lines)).map
           (chunkCall table "skip")) := by
  intro lines
  induction lines with
  | nil =>
    intro buffer total trace hbuf hparse
    have hpr : parsedRecords parse ([] : List String) = [] := rfl
    rw [hpr]
    simp only [ingestLines, List.append_nil]
    by_cases hb : buffer.length ≠ 0
    · rw [if_pos hb]
      have hchunks : chunkArrayPos chunkSize buffer = [buffer] :=
        chunkArrayPos_singleton chunkSize buffer (by omega) (by omega)
      have hic := insertChunks_ok B table "skip" buffer chunkSize hs
        (fun c hc => by rw [chunkWrite_skip]; exact hB c)
      simp only [hic, hchunks]
      simp
    · rw [if_neg hb]
      push_neg at hb
      have : buffer = [] := List.length_eq_zero.mp hb
      subst this
      rw [chunkArrayPos_nil]
      simp
  | cons line rest ih =>
    intro buffer total trace hbuf hparse
    simp only [ingestLines]
    by_cases hblank : jsTrim line = ""
    · rw [if_pos hblank]
      have hpr : parsedRecords parse (line :: rest) = parsedRecords parse rest := by
        simp [parsedRecords, hblank]
      rw [hpr]
      exact ih buffer total trace hbuf (fun l hl => hparse l (List.mem_cons_of_mem _ hl))
    · rw [if_neg hblank]
      obtain ⟨r, hr⟩ := hparse line (by simp) hblank
      have hpr : parsedRecords parse (line :: rest) = r :: parsedRecords parse rest := by
        simp only [parsedRecords, List.filterMap_cons, hblank, hr]
        simp [Except.toOption]
      rw [hpr]
      simp only [hr]
      by_cases hfull : chunkSize ≤ (buffer ++ [r]).length
      · rw [if_pos hfull]
        have hlen : (buffer ++ [r]).length = chunkSize := by
          simp at hfull ⊢
          omega
        have hic := insertChunks_ok B table "skip" (buffer ++ [r]) chunkSize hs
          (fun c hc => by rw [chunkWrite_skip]; exact hB c)
        have hchunks : chunkArrayPos chunkSize (buffer ++ [r]) = [buffer ++ [r]] :=
          chunkArrayPos_singleton chunkSize _ (by simp) (by omega)
        rw [hchunks] at hic
        simp only [hic]
        rw [ih [] (total + (buffer ++ [r]).length) _ (by simpa using hs)
          (fun l hl => hparse l (List.mem_cons_of_mem _ hl))]
        have hsplit : buffer ++ r :: parsedRecords parse rest =
            (buffer ++ [r]) ++ parsedRecords parse rest := by
          simp
        rw [hsplit, chunkArrayPos_prepend chunkSize hs _ _ hlen]
        simp only [List.nil_append, List.map_cons, List.append_assoc, List.cons_append,
          Prod.mk.injEq, Except.ok.injEq]
        refine ⟨by simp; omega, by simp⟩
      · rw [if_neg hfull]
        rw [ih (buffer ++ [r]) total trace (by simp at hfull ⊢; omega)
          (fun l hl => hparse l (List.mem_cons_of_mem _ hl))]
        have hsplit : buffer ++ r :: parsedRecords parse rest =
            (buffer ++ [r]) ++ parsedRecords parse rest := by
          simp
        rw [hsplit]
        congr 2
        simp
        omega

theorem chunkCall_skip (table : String) :
    chunkCall (α := α) table "skip" = BackendCall.upsertIgnore table := by
  funext c
  simp [chunkCall]

/-- C4: when the fetch yields the given lines, every non-blank line parses,
and every backend write succeeds, `ingestNdjsonFromUrl` flushes the buffer
through `insertChunks` in `skip` mode each time it reaches the chunk size
and once more for a remaining partial buffer: the backend writes issued are
exactly the consecutive chunks of the parsed records, all as skip-mode
upserts, and the returned total is the number of parsed records.  In
particular (see the witness) a 3-line resource at chunk size 2 issues
exactly two writes, of 2 and 1 records, and returns 3. -/
theorem C4_ingestNdjson_spec (B : Backend α) (table : String)
    (fetchUrl : String → Except String (List String)) (parse : String → Except String α)
    (fileUrl : String) (chunkSize : Nat) (lines : List String)
    (hs : 0 < chunkSize)
    (hfetch : fetchUrl fileUrl = .ok lines)
    (hparse : ∀ line ∈ lines, jsTrim line ≠ "" → ∃ r, parse (jsTrim line) = .ok r)
    (hB : ∀ c, B.upsertIgnore table c = none) :
    ingestNdjsonFromUrl B table fetchUrl parse fileUrl chunkSize =
      (.ok (parsedRecords parse lines).length,
       (chunkArrayPos chunkSize (parsedRecords parse lines)).map
         (BackendCall.upsertIgnore table)) := by
  simp only [ingestNdjsonFromUrl, hfetch]
  rw [ingestLines_ok B table parse chunkSize hs hB lines [] 0 [] (by simpa using hs) hparse]
  rw [chunkCall_skip]
  simp

/-- Witness for C4: a 3-line resource at chunk size 2 issues exactly two
skip-mode writes, of 2 records then 1 record, and returns total 3. -/
theorem C4_witness :
    0 < 2 ∧
    fetchThree "https://example.com/data.ndjson" = .ok ["1", "2", "3"] ∧
    (∀ c : List Nat, alwaysOkBackend.upsertIgnore "movies" c = none) ∧
    ingestNdjsonFromUrl alwaysOkBackend "movies" fetchThree natParse
        "https://example.com/data.ndjson" 2 =
      (.ok 3, [.upsertIgnore "movies" [1, 2], .upsertIgnore "movies" [3]]) := by
  refine ⟨by decide, rfl, fun c => rfl, ?_⟩
  have h := C4_ingestNdjson_spec alwaysOkBackend "movies" fetchThree natParse
    "https://example.com/data.ndjson" 2 ["1", "2", "3"] (by decide) rfl
    (by
      intro line hline hne
      simp at hline
      rcases hline with rfl | rfl | rfl
      · exact ⟨1, rfl⟩
      · exact ⟨2, rfl⟩
      · exact ⟨3, rfl⟩)
    (fun c => rfl)
  rw [h]
  have hpr : parsedRecords natParse ["1", "2", "3"] = [1, 2, 3] := by decide
  rw [hpr]
  have h2 : chunkArrayPos 2 ([1, 2, 3] : List Nat) = [[1, 2], [3]] := by
    simp [chunkArrayPos_cons, chunkArrayPos_nil]
  rw [h2]
  rfl

/-- C7: a request with no Authorization header is rejected with
401-equivalent Unauthorized; a request whose (present, non-empty) header
carries a token failing verification is rejected with 403-equivalent
Forbidden; a request whose token verifies is passed on with the decoded
claims attached. -/
theorem C7_authMiddleware_spec {χ : Type u} (verify : Option String → Except String χ)
    (authHeader : Option String) :
    (authHeader = none → authMiddleware verify authHeader = .reject401) ∧
    (∀ h, authHeader = some h → h ≠ "" →
      (∀ e, verify (jsSplit ' ' h)[1]? = .error e →
        authMiddleware verify authHeader = .reject403) ∧
      (∀ claims, verify (jsSplit ' ' h)[1]? = .ok claims →
        authMiddleware verify authHeader = .proceed claims)) := by
  constructor
  · rintro rfl
    rfl
  · rintro h rfl hne
    constructor
    · intro e he
      simp [authMiddleware, hne, he]
    · intro claims hc
      simp [authMiddleware, hne, hc]

/-- Witness for C7: missing header is 401, a bad bearer token is 403, the
good bearer token proceeds with its claims. -/
theorem C7_witness :
    authMiddleware verifyStub none = .reject401 ∧
    authMiddleware verifyStub (some "Bearer bad-token") = .reject403 ∧
    authMiddleware verifyStub (some "Bearer good-token") = .proceed "user-1" :=
  ⟨(C7_authMiddleware_spec verifyStub none).1 rfl,
   (((C7_authMiddleware_spec verifyStub (some "Bearer bad-token")).2
      "Bearer bad-token" rfl (by decide)).1 "invalid signature" rfl),
   (((C7_authMiddleware_spec verifyStub (some "Bearer good-token")).2
      "Bearer good-token" rfl (by decide)).2 "user-1" rfl)⟩

/-- C9: for each registered table name, `GET /api/T/search` reaches the
search handler and `GET /api/T/with-video` the with-video handler — never
the get-by-id route — and the get-by-id route handles a `GET /api/T/x`
request only when `x` is a non-empty all-digits segment (in particular
never the literals `search` or `with-video`). -/
theorem C9_route_precedence (t : String) (ht : t ∈ ["movies", "series", "anime"]) :
    (dispatch .get ["api", t, "search"] = some (.search t)) ∧
    (dispatch .get ["api", t, "with-video"] = some (.withVideo t)) ∧
    (∀ s : String, dispatch .get ["api", t, s] = some (.getById t) →
      s ≠ "" ∧ s.data.all Char.isDigit = true ∧ s ≠ "search" ∧ s ≠ "with-video") := by
  fin_cases ht <;>
  · refine ⟨by decide, by decide, ?_⟩
    intro s h
    by_cases h3 : ((s != "") && s.data.all Char.isDigit) = true
    · simp only [Bool.and_eq_true, bne_iff_ne, ne_eq] at h3
      refine ⟨h3.1, h3.2, ?_, ?_⟩
      · intro hs
        subst hs
        exact absurd h3.2 (by decide)
      · intro hs
        subst hs
        exact absurd h3.2 (by decide)
    · by_cases h1 : s = "with-video"
      · subst h1
        exact absurd h (by decide)
      by_cases h2 : s = "search"
      · subst h2
        exact absurd h (by decide)
      have hb1 : ("with-video" == s) = false := by
        simp
        exact fun hh => h1 hh.symm
      have hb2 : ("search" == s) = false := by
        simp
        exact fun hh => h2 hh.symm
      have hput : (Method.put == Method.get) = false := rfl
      have hdel : (Method.delete == Method.get) = false := rfl
      have hpost : (Method.post == Method.get) = false := rfl
      simp +decide [dispatch, appRoutes, generateRoutes, List.find?, routeMatches,
        segMatches, hb1, hb2, h3, hput, hdel, hpost] at h

/-- Witness for C9 at table `movies`: the literal routes dispatch to their
handlers and the all-digits segment `42` is the get-by-id case. -/
theorem C9_witness :
    ("movies" ∈ ["movies", "series", "anime"]) ∧
    dispatch .get ["api", "movies", "search"] = some (.search "movies") ∧
    dispatch .get ["api", "movies", "with-video"] = some (.withVideo "movies") ∧
    ("42" ≠ "" ∧ "42".data.all Char.isDigit = true ∧ "42" ≠ "search" ∧ "42" ≠ "with-video") :=
  ⟨by decide,
   (C9_route_precedence "movies" (by decide)).1,
   (C9_route_precedence "movies" (by decide)).2.1,
   (C9_route_precedence "movies" (by decide)).2.2 "42" (by decide)⟩

/-- C8: for every table and page query, the list response reports the
exact row count as `total` with `totalPages` the ceiling of `total / 30`
(characterized as the least bound of 30-row pages covering `total`); and
whenever the table holds exactly 45 rows, page 2 returns exactly 15
results, `totalPages = 2`, `total = 45`. -/
theorem C8_list_pagination (ordered : List α) (pageQ : Option Int) :
    ((listHandler ordered pageQ).total = ordered.length ∧
     (listHandler ordered pageQ).total ≤ (listHandler ordered pageQ).totalPages * 30 ∧
     (listHandler ordered pageQ).totalPages * 30 < (listHandler ordered pageQ).total + 30) ∧
    (ordered.length = 45 →
      (listHandler ordered (some 2)).results.length = 15 ∧
      (listHandler ordered (some 2)).totalPages = 2 ∧
      (listHandler ordered (some 2)).total = 45 ∧
      (listHandler ordered (some 2)).page = 2) := by
  constructor
  · refine ⟨rfl, ?_, ?_⟩ <;>
    · simp only [listHandler]
      omega
  · intro h45
    refine ⟨?_, ?_, ?_, ?_⟩
    · simp [listHandler, backendRange, jsOrDefault, h45]
    · simp only [listHandler, h45]
    · simp only [listHandler, h45]
    · rfl

/-- Witness for C8: the 45-row table of zeros, page 2. -/
theorem C8_witness :
    (List.replicate 45 (0 : Nat)).length = 45 ∧
    (listHandler (List.replicate 45 (0 : Nat)) (some 2)).results.length = 15 ∧
    (listHandler (List.replicate 45 (0 : Nat)) (some 2)).totalPages = 2 ∧
    (listHandler (List.replicate 45 (0 : Nat)) (some 2)).total = 45 :=
  ⟨by decide,
   ((C8_list_pagination (List.replicate 45 (0 : Nat)) (some 2)).2 (by decide)).1,
   ((C8_list_pagination (List.replicate 45 (0 : Nat)) (some 2)).2 (by decide)).2.1,
   ((C8_list_pagination (List.replicate 45 (0 : Nat)) (some 2)).2 (by decide)).2.2.1⟩

/-- C10: when the id query parameter is non-blank after trimming, the
search handler issues only the exact id lookup (never the title search),
whatever `q` holds; the title search can only have been issued when the
trimmed id is empty. -/
theorem C10_search_id_precedence (lookupById : String → Except String α)
    (searchTitle : String → Int → Int → Bool → Except String (List α × Option Nat))
    (qP idP : Option String) (pageQ : Option Int) (countP : Option String) :
    (jsTrim (idP.getD "") ≠ "" →
      (searchHandler lookupById searchTitle qP idP pageQ countP).2 =
        [.byId (jsTrim (idP.getD ""))]) ∧
    (∀ pat fro upTo ce,
      SearchCall.byTitle pat fro upTo ce ∈
        (searchHandler lookupById searchTitle qP idP pageQ countP).2 →
      jsTrim (idP.getD "") = "") := by
  constructor
  · intro hid
    simp only [searchHandler, if_pos hid]
    cases lookupById (jsTrim (idP.getD "")) <;> rfl
  · intro pat fro upTo ce hmem
    by_cases hid : jsTrim (idP.getD "") = ""
    · exact hid
    · exfalso
      simp only [searchHandler, if_pos hid] at hmem
      cases h : lookupById (jsTrim (idP.getD "")) <;>
        simp [h] at hmem

/-- Witness for C10: with both `q=Matrix` and `id=7` supplied, only the id
lookup runs and the response is the single row. -/
theorem C10_witness :
    jsTrim ((some "7" : Option String).getD "") ≠ "" ∧
    (searchHandler lookupStub searchTitleStub (some "Matrix") (some "7") none none).2 =
      [.byId "7"] ∧
    (searchHandler lookupStub searchTitleStub (some "Matrix") (some "7") none none).1 =
      .single "row-7" := by
  refine ⟨by decide, ?_, by decide⟩
  have h := (C10_search_id_precedence lookupStub searchTitleStub
    (some "Matrix") (some "7") none none).1 (by decide)
  rw [h]
  decide

/-- C6: an update whose id matches no row answers 400-equivalent (and never
404-equivalent); an update whose id matches answers the updated row. -/
theorem C6_update_spec (table : List (Nat × α)) (id : Nat) (patch : α → α) :
    ((∀ r ∈ table, r.1 ≠ id) →
      updateHandler (backendUpdate table id patch) =
        .err400 "no rows matched the update" ∧
      ∀ m, updateHandler (backendUpdate table id patch) ≠ .err404 m) ∧
    (∀ v rest, table.filter (fun r => r.1 == id) = (id, v) :: rest →
      updateHandler (backendUpdate table id patch) = .json (some (id, patch v))) := by
  constructor
  · intro hnone
    have hfilter : table.filter (fun r => r.1 == id) = [] := by
      rw [List.filter_eq_nil_iff]
      intro r hr
      simpa using hnone r hr
    constructor
    · simp [updateHandler, backendUpdate, hfilter]
    · intro m
      simp [updateHandler, backendUpdate, hfilter]
  · intro v rest hfilter
    simp [updateHandler, backendUpdate, hfilter]

/-- Witness for C6: a two-row table; id 3 matches nothing (400, not 404),
id 2 matches and answers the patched row. -/
theorem C6_witness :
    (∀ r ∈ ([(1, 10), (2, 20)] : List (Nat × Nat)), r.1 ≠ 3) ∧
    updateHandler (backendUpdate ([(1, 10), (2, 20)] : List (Nat × Nat)) 3 (fun v => v + 5)) =
      .err400 "no rows matched the update" ∧
    updateHandler (backendUpdate ([(1, 10), (2, 20)] : List (Nat × Nat)) 2 (fun v => v + 5)) =
      .json (some (2, 25)) :=
  ⟨by decide,
   ((C6_update_spec ([(1, 10), (2, 20)] : List (Nat × Nat)) 3 (fun v => v + 5)).1
     (by decide)).1,
   (C6_update_spec ([(1, 10), (2, 20)] : List (Nat × Nat)) 2 (fun v => v + 5)).2 20 []
     (by decide)⟩

/-- C5 counterexample: a body presenting two shapes (`items` and
`fileUrl`) is processed through the `items` path and answers 200, not the
claimed 400 client error. -/
theorem C5_counterexample :
    numShapes (BulkBody.objectBody (some [(1 : Nat)]) (some "https://example.com/d.ndjson")) = 2 ∧
    (bulkUploadHandler alwaysOkBackend "movies" fetchThree natParse
        (BulkBody.objectBody (some [(1 : Nat)]) (some "https://example.com/d.ndjson")) none).1 =
      .ok "Inserted 1 records into movies in chunks of 30" := by
  constructor
  · decide
  · have hins := insertChunks_ok alwaysOkBackend "movies" "skip" [(1 : Nat)] 30
      (by decide) (fun c hc => by rw [chunkWrite_skip]; rfl)
    have hchunks : chunkArrayPos 30 ([1] : List Nat) = [[1]] := by
      simp [chunkArrayPos_cons, chunkArrayPos_nil]
    rw [hchunks] at hins
    simp only [bulkUploadHandler, jsOrDefault]
    rw [show (max 1 ((30 : Int))).toNat = 30 from rfl, hins]
    decide

/-- C5 amended: only the absence of all three input shapes is a 400 client
error; when more than one shape is present the handler is not a client
error but processes the highest-precedence shape (array body over `items`
over `fileUrl`) — in particular with both `items` and `fileUrl` present it
processes `items` exactly as if `fileUrl` were absent. -/
theorem C5_amended_bulkUpload (B : Backend α) (table : String)
    (fetchUrl : String → Except String (List String)) (parse : String → Except String α)
    (body : BulkBody α) (chunkSizeQ : Option Int) :
    (numShapes body = 0 →
      (bulkUploadHandler B table fetchUrl parse body chunkSizeQ).1 =
        .badRequest "Provide either an array body, \x7b items: [...] \x7d, or \x7b fileUrl \x7d pointing to NDJSON") ∧
    (∀ rows fileUrl, body = .objectBody (some rows) fileUrl →
      bulkUploadHandler B table fetchUrl parse body chunkSizeQ =
        bulkUploadHandler B table fetchUrl parse (.objectBody (some rows) none) chunkSizeQ) := by
  constructor
  · intro h0
    match body with
    | .arrayBody rows => simp [numShapes] at h0
    | .objectBody items fileUrl =>
      match items with
      | some _ => simp [numShapes] at h0
      | none =>
        match fileUrl with
        | none => rfl
        | some url =>
          have hurl : url = "" := by
            simp [numShapes] at h0
            simpa using h0
          subst hurl
          simp [bulkUploadHandler]
  · rintro rows fileUrl rfl
    rfl

/-- Witness for the amended C5: the empty object is the 400 case; `items`
with a concrete `fileUrl` behaves exactly as `items` alone. -/
theorem C5_amended_witness :
    numShapes (BulkBody.objectBody (α := Nat) none none) = 0 ∧
    (bulkUploadHandler alwaysOkBackend "movies" fetchThree natParse
        (BulkBody.objectBody (α := Nat) none none) none).1 =
      .badRequest "Provide either an array body, \x7b items: [...] \x7d, or \x7b fileUrl \x7d pointing to NDJSON" ∧
    bulkUploadHandler alwaysOkBackend "movies" fetchThree natParse
        (BulkBody.objectBody (some [(1 : Nat)]) (some "https://example.com/d.ndjson")) none =
      bulkUploadHandler alwaysOkBackend "movies" fetchThree natParse
        (BulkBody.objectBody (some [(1 : Nat)]) none) none :=
  ⟨by decide,
   (C5_amended_bulkUpload alwaysOkBackend "movies" fetchThree natParse
      (BulkBody.objectBody none none) none).1 (by decide),
   (C5_amended_bulkUpload alwaysOkBackend "movies" fetchThree natParse
      (BulkBody.objectBody (some [(1 : Nat)]) (some "https://example.com/d.ndjson")) none).2
     [1] (some "https://example.com/d.ndjson") rfl⟩

end MovieDb
